import Mathlib

/-!
Shallow embedding of the criner orchestration core, translated from the
repository sources:

* src/criner/src/model.rs                    — domain records and TaskState merge
* src/criner/src/persistence/keyed.rs        — canonical string keys
* src/criner/src/export/to_sql/task.rs       — SQL export of the task ledger
* src/criner/src/engine/stage/changes.rs     — index-diff stage
* src/criner/src/engine/stage/report.rs      — report driver and write policies
* src/criner/src/engine/stage/db_download/mod.rs — db-dump stage trigger

Rust panics (assert!, unwrap, expect, division by zero) are modelled by an
explicit none / panicked constructor; machine integers are modelled as Nat
(no claim here depends on wrap-around).
-/

namespace Criner

/-- The kind of change of a crate version, from crates_index_diff (serde field "yanked"). -/
inductive ChangeKind
  | Added
  | Yanked
deriving DecidableEq, Repr

/-- A single dependency of a specific crate version, from model.rs. -/
structure Dependency where
  name : String
  required_version : String
  features : List String
  optional : Bool
  default_features : Bool
  target : Option String
  kind : Option String
  package : Option String
deriving DecidableEq, Repr

/-- Pack of all information about a change made to a version of a crate, from model.rs.
The features HashMap is modelled as an association list. -/
structure CrateVersion where
  name : String
  kind : ChangeKind
  version : String
  checksum : String
  features : List (String × List String)
  dependencies : List Dependency
deriving DecidableEq, Repr

/-- A top-level crate: all published versions, most recent last, from model.rs. -/
structure Crate where
  versions : List String
deriving DecidableEq, Repr

/-- impl From for Crate of a CrateVersion reference, model.rs lines 12-18. -/
def Crate.fromVersion (v : CrateVersion) : Crate :=
  { versions := [v.version] }

/-- Element counts of various kinds, from model.rs. -/
structure Counts where
  crate_versions : Nat
  crates : Nat
deriving DecidableEq, Repr

/-- Wall-clock durations, from model.rs; a Duration is modelled as a Nat. -/
structure Durations where
  fetch_crate_versions : Nat
deriving DecidableEq, Repr

/-- Per-day aggregate of work performed, from model.rs. -/
structure Context where
  counts : Counts
  durations : Durations
deriving DecidableEq, Repr

/-- impl Add for Context, componentwise, model.rs lines 45-60. -/
def Context.add (self rhs : Context) : Context :=
  { counts :=
      { crate_versions := self.counts.crate_versions + rhs.counts.crate_versions
        crates := self.counts.crates + rhs.counts.crates }
    durations :=
      { fetch_crate_versions :=
          self.durations.fetch_crate_versions + rhs.durations.fetch_crate_versions } }

/-- Lifecycle state of a task, from model.rs (variant order as declared there). -/
inductive TaskState
  | NotStarted
  | AttemptsWithFailure (errors : List String)
  | Complete
  | InProgress (errors : Option (List String))
deriving DecidableEq, Repr

/-- merge_vec from TaskState::merge_with: extend the existing vector by clones of the new one. -/
def mergeVec (existing : List String) (new : List String) : List String :=
  existing ++ new

/-- TaskState::merge_with, model.rs lines 153-172, as a function of the stored state
(self) and the merged-in state (other). The panicking arm
(AttemptsWithFailure, InProgress(Some)) is modelled as none; every normal
return is some of the new stored state. Match arms in source order. -/
def TaskState.merge_with : TaskState → TaskState → Option TaskState
  | .AttemptsWithFailure existing, .AttemptsWithFailure new =>
      some (.AttemptsWithFailure (mergeVec existing new))
  | .AttemptsWithFailure existing, .InProgress none =>
      some (.InProgress (some existing))
  | .AttemptsWithFailure _, .InProgress (some _) => none
  | .InProgress (some existing), .AttemptsWithFailure other =>
      some (.AttemptsWithFailure (mergeVec existing other))
  | _, other => some other

/-- A task row of the ledger, from model.rs; stored_at is seconds since the epoch. -/
structure Task where
  stored_at : Nat
  process : String
  version : String
  state : TaskState
deriving DecidableEq, Repr

/-- An entry in a tar archive, from model.rs; the path is a byte sequence. -/
structure TarHeader where
  path : List Nat
  size : Nat
  entry_type : Nat
deriving DecidableEq, Repr

/-- Append-variant-only result of a task, from model.rs lines 218-237. -/
inductive TaskResult
  | None
  | ExplodedCrate (entries_meta_data : List TarHeader)
      (selected_entries : List (TarHeader × List Nat))
  | Download (kind : String) (url : String) (content_length : Nat)
      (content_type : Option String)
deriving DecidableEq, Repr

/-! ### Keys, from persistence/keyed.rs -/

/-- KEY_SEP_CHAR from keyed.rs. -/
def KEY_SEP_CHAR : Char := ':'

/-- The separator as a one-character string, for building keys by concatenation. -/
def keySep : String := String.singleton KEY_SEP_CHAR

/-- CrateVersion::key_from, keyed.rs lines 77-83: name, separator, version. -/
def CrateVersion.key_from (name version : String) : String :=
  name ++ keySep ++ version

/-- Keyed::key_buf for CrateVersion, keyed.rs lines 31-35. -/
def CrateVersion.key (v : CrateVersion) : String :=
  CrateVersion.key_from v.name v.version

/-- Crate::key_from_version_buf, keyed.rs lines 37-41: the crate key is just the name. -/
def Crate.key_from_version (v : CrateVersion) : String :=
  v.name

/-- Keyed::key_buf for Task, keyed.rs lines 15-21: process, separator, version. -/
def Task.key (t : Task) : String :=
  t.process ++ keySep ++ t.version

/-- Task::fq_key, keyed.rs lines 23-29: crate-version key, separator, task key. -/
def Task.fq_key (t : Task) (crate_name crate_version : String) : String :=
  CrateVersion.key_from crate_name crate_version ++ keySep ++ t.key

/-- Keyed::key_buf for TaskResult, keyed.rs lines 43-53: the Download variant appends
separator and kind, the other variants append nothing. -/
def TaskResult.keySuffix : TaskResult → String
  | .Download kind _ _ _ => keySep ++ kind
  | .None => ""
  | .ExplodedCrate _ _ => ""

/-- TaskResult::fq_key, keyed.rs lines 55-60: the owning task fq key then the suffix. -/
def TaskResult.fq_key (r : TaskResult) (crate_name crate_version : String) (task : Task) :
    String :=
  task.fq_key crate_name crate_version ++ r.keySuffix

/-! ### SQL export of the task ledger, from export/to_sql/task.rs -/

/-- The state column literal written by the export, task.rs lines 71-76. -/
def TaskState.sqlString : TaskState → String
  | .NotStarted => "NotStarted"
  | .Complete => "Complete"
  | .InProgress _ => "InProgress"
  | .AttemptsWithFailure _ => "AttemptsWithFailure"

/-- One row of the exported tasks table (task.rs REPLACE INTO parameter list). -/
structure TaskRow where
  id : Nat
  crate_name : String
  crate_version : String
  process : String
  version : String
  stored_at : Nat
  state : String
deriving DecidableEq, Repr

/-- Outcome of SqlConvert::insert for a task: a Rust panic (failed unwrap or
assert), the Bug error for a missing secondary statement, or the written
primary row together with the error rows written to task_errors. -/
inductive InsertOutcome
  | panicked
  | bugMissingSecondary
  | ok (row : TaskRow) (error_rows : List (Nat × String))
deriving DecidableEq, Repr

/-- Splitting a key at KEY_SEP_CHAR, as key.split does in task.rs line 49. -/
def splitKey (key : String) : List String :=
  (key.toList.splitOn KEY_SEP_CHAR).map fun cs => String.mk cs

/-- SqlConvert::insert for model::Task, task.rs lines 41-88. The key is split at
the separator; three components are unwrapped and a fourth token must not
exist (assert), otherwise the call panics. The primary row takes crate_name
and crate_version from the key and the remaining columns from the task value;
error rows are written when the state is InProgress(Some(errors)) or
AttemptsWithFailure(errors), requiring the secondary statement. -/
def Task.sqlInsert (t : Task) (key : String) (uid : Nat) (has_secondary : Bool) :
    InsertOutcome :=
  match splitKey key with
  | [crate_name, crate_version, _process_name] =>
      let row : TaskRow :=
        { id := uid
          crate_name := crate_name
          crate_version := crate_version
          process := t.process
          version := t.version
          stored_at := t.stored_at
          state := t.state.sqlString }
      match t.state with
      | .InProgress (some errors) | .AttemptsWithFailure errors =>
          if has_secondary then .ok row (errors.map fun e => (uid, e))
          else .bugMissingSecondary
      | _ => .ok row []
  | _ => .panicked

/-! ### Report driver and write policies, from engine/stage/report.rs -/

/-- A report write request: path and content, from engine/report/generic. -/
structure WriteRequest where
  path : String
  content : List Nat
deriving DecidableEq, Repr

/-- What the caller should do with the request after consulting the policy. -/
inductive WriteInstruction
  | DoWrite (req : WriteRequest)
  | Skip
deriving DecidableEq, Repr

/-- Result of a write-policy callback: a panic (failed expect on a missing
channel), the Message error on a failed channel send, or the instruction. -/
inductive PolicyOutcome
  | panicked
  | message (msg : String)
  | ok (instr : WriteInstruction)
deriving DecidableEq, Repr

/-- The WriteCallbackState: a send endpoint of the bounded git channel when a
repo is open, modelled by the send outcome per request (true = delivered). -/
def WriteCallbackState := Option (WriteRequest → Bool)

/-- git::repo_with_working_dir, report.rs lines 70-79: expect the channel,
send a clone of the request, map a send failure to the Message error, and
instruct the caller to also write the file itself. -/
def repo_with_working_dir (req : WriteRequest) (send : WriteCallbackState) :
    PolicyOutcome :=
  match send with
  | none => .panicked
  | some s =>
      if s req then .ok (.DoWrite req)
      else .message "Could not send git request"

/-- git::repo_bare, report.rs lines 80-86: expect the channel, send the request,
map a send failure to the Message error, and skip the direct write. -/
def repo_bare (req : WriteRequest) (send : WriteCallbackState) : PolicyOutcome :=
  match send with
  | none => .panicked
  | some s =>
      if s req then .ok .Skip
      else .message "Could not send git request"

/-- git::not_available, report.rs lines 88-93: always instruct the direct write;
the channel state is ignored. -/
def not_available (req : WriteRequest) (_state : WriteCallbackState) : PolicyOutcome :=
  .ok (.DoWrite req)

/-- chunk_size in generate, report.rs line 113: 500.min(num_crates). -/
def reportChunkSize (num_crates : Nat) : Nat :=
  min 500 num_crates

/-- The report-aggregator progress initialisation in generate, report.rs line 143:
num_crates / chunk_size, a u32 division that panics (none) when chunk_size
is zero. -/
def mergeProgressInit (num_crates : Nat) : Option Nat :=
  let chunk_size := reportChunkSize num_crates
  if chunk_size = 0 then none else some (num_crates / chunk_size)

/-- One query of the paged crates fetch, report.rs lines 163-175: the SQL range
over the filtered table with offset = fetched_crates and limit = chunk_size,
i.e. drop the already fetched rows and take at most chunk_size. -/
def fetchChunkQuery (table : List α) (offset limit : Nat) : List α :=
  (table.drop offset).take limit

/-- The driver loop of generate, report.rs lines 159-203: fetch a chunk at
offset fetched_crates, add its length to fetched_crates, dispatch the chunk,
and break after dispatching once the chunk length differs from chunk_size.
The loop has no terminating case of its own in the source; fuel models the
number of iterations still permitted, none meaning the loop did not finish
within the fuel. Returns the dispatched chunks in dispatch order. -/
def driverLoop (fuel : Nat) (cs : Nat) (table : List α) (fetched : Nat) :
    Option (List (List α)) :=
  match fuel with
  | 0 => none
  | fuel + 1 =>
      let chunk := fetchChunkQuery table fetched cs
      let abort_loop := chunk.length ≠ cs
      if abort_loop then some [chunk]
      else (driverLoop fuel cs table (fetched + chunk.length)).map fun rest =>
        chunk :: rest

/-! ### db-dump stage trigger, from engine/stage/db_download/mod.rs -/

/-- TaskState::is_complete. Modelled from the spec: the method is declared on
the ledger model outside src; per the spec it holds exactly of the Complete
state (the guard reads "state.is_complete()"). -/
def TaskState.is_complete : TaskState → Bool
  | .Complete => true
  | _ => false

/-- Task key of the db dump, mod.rs lines 238-243: the literal crates-io-db-dump,
the separator, and today as YYYY-MM-DD. -/
def dbDumpTaskKey (today_yyyy_mm_dd : String) : String :=
  "crates-io-db-dump" ++ keySep ++ today_yyyy_mm_dd

/-- The admission guard of trigger, mod.rs lines 246-250: a missing row admits
the stage (unwrap_or(true)); a stored task admits it when it can be started
relative to the startup time or its state is complete. Task::can_be_started
lives outside src and is passed in as a predicate. -/
def dbDumpGuard (stored : Option Task) (can_be_started : Task → Bool) : Bool :=
  match stored with
  | none => true
  | some t => can_be_started t || t.state.is_complete

/-- Observable effects of one run of trigger, mod.rs lines 207-276. -/
structure TriggerRun where
  sent : Bool
  extracted : Bool
deriving DecidableEq, Repr

/-- trigger, mod.rs lines 207-276: look up today's task, and when the guard
admits the stage, send the one DownloadRequest and, once the io worker
delivers the downloaded archive path (download_ok), run extract_and_ingest. -/
def dbDumpTrigger (tasks : String → Option Task) (can_be_started : Task → Bool)
    (today_yyyy_mm_dd : String) (download_ok : Bool) : TriggerRun :=
  if dbDumpGuard (tasks (dbDumpTaskKey today_yyyy_mm_dd)) can_be_started then
    { sent := true, extracted := download_ok }
  else
    { sent := false, extracted := false }

/-! ### Index-diff stage, from engine/stage/changes.rs -/

/-- A keyed store snapshot, modelled as an association list where the most
recent write for a key is found first. -/
def Store (α : Type) := List (String × α)

/-- Read a key from a store snapshot. -/
def Store.lookup (s : Store α) (k : String) : Option α :=
  match s with
  | [] => none
  | (k2, v) :: rest => if k2 = k then some v else Store.lookup rest k

/-- Write a key into a store snapshot (overwrite-on-collision semantics:
lookups see the newest write). -/
def Store.insert (s : Store α) (k : String) (v : α) : Store α :=
  (k, v) :: s

/-- Everything the transaction body of fetch accumulates, changes.rs lines 83-105:
the journal of CrateVersion row writes in write order, the crates store,
and the two counters. -/
structure ChangesOutcome where
  versionWrites : List (String × CrateVersion)
  crates : Store Crate
  new_crate_versions : Nat
  new_crates : Nat

/-- The per-change loop of fetch, changes.rs lines 87-105, parameterised by the
merge performed by CratesTree::upsert (which lives outside src): for each
change in iteration order, insert the CrateVersion row under its key and
count it, then upsert the owning Crate under the crate key and count a new
crate iff the post-upsert versions has length 1. -/
def processChanges (merge : Option Crate → CrateVersion → Crate) :
    List CrateVersion → Store Crate → ChangesOutcome
  | [], crates =>
      { versionWrites := [], crates := crates, new_crate_versions := 0, new_crates := 0 }
  | version :: rest, crates =>
      let merged := merge (crates.lookup (Crate.key_from_version version)) version
      let crates2 := crates.insert (Crate.key_from_version version) merged
      let tail := processChanges merge rest crates2
      { versionWrites := (version.key, version) :: tail.versionWrites
        crates := tail.crates
        new_crate_versions := 1 + tail.new_crate_versions
        new_crates := (if merged.versions.length = 1 then 1 else 0) + tail.new_crates }

/-- The Context read-modify-write of fetch, changes.rs lines 108-114. Modelled
from the spec: ContextTree::update_today (outside src) applies the mutator to
today's stored record; the mutator adds both counters and the elapsed fetch
time. -/
def updateTodayContext (ctx : Context) (new_crate_versions new_crates elapsed : Nat) :
    Context :=
  { counts :=
      { crate_versions := ctx.counts.crate_versions + new_crate_versions
        crates := ctx.counts.crates + new_crates }
    durations :=
      { fetch_crate_versions := ctx.durations.fetch_crate_versions + elapsed } }

/-- The whole transaction body of fetch, changes.rs lines 66-124: process all
changes, then update today's Context with the accumulated counts and the
elapsed time since the stage started. -/
def fetchStage (merge : Option Crate → CrateVersion → Crate)
    (changes : List CrateVersion) (crates0 : Store Crate) (ctx : Context)
    (elapsed : Nat) : ChangesOutcome × Context :=
  let out := processChanges merge changes crates0
  (out, updateTodayContext ctx out.new_crate_versions out.new_crates elapsed)

/-- Restatement of the new-crates rule in the words of the spec, for comparison
with the loop above: walking the changes in order, a change counts as a new
crate iff the post-upsert Crate.versions has length 1, where the upsert at
each step sees the store produced by the previous steps. -/
def newCratesSpec (merge : Option Crate → CrateVersion → Crate) :
    List CrateVersion → Store Crate → Nat
  | [], _ => 0
  | version :: rest, crates =>
      let merged := merge (crates.lookup (Crate.key_from_version version)) version
      (if merged.versions.length = 1 then 1 else 0) +
        newCratesSpec merge rest (crates.insert (Crate.key_from_version version) merged)

/-! ## Theorems -/

/-- C8: For every CrateVersion v, Crate::from(&v) produces a Crate whose
versions field is exactly the one-element sequence containing v.version, so
a first-seen crate is detectable by versions.len() == 1 after upsert. -/
theorem crate_from_version_singleton (v : CrateVersion) :
    (Crate.fromVersion v).versions = [v.version] ∧
    (Crate.fromVersion v).versions.length = 1 := by
  constructor <;> rfl

/-- C9: TaskResult::fq_key equals the owning task fully-qualified key with the
suffix separator-kind appended exactly for the Download variant; for the None
and ExplodedCrate variants it equals the task key unchanged. -/
theorem task_result_fq_key (crate_name crate_version : String) (task : Task)
    (kind url : String) (content_length : Nat) (content_type : Option String)
    (emd : List TarHeader) (se : List (TarHeader × List Nat)) :
    (TaskResult.Download kind url content_length content_type).fq_key
        crate_name crate_version task =
      task.fq_key crate_name crate_version ++ keySep ++ kind ∧
    TaskResult.None.fq_key crate_name crate_version task =
      task.fq_key crate_name crate_version ∧
    (TaskResult.ExplodedCrate emd se).fq_key crate_name crate_version task =
      task.fq_key crate_name crate_version := by
  refine ⟨?_, ?_, ?_⟩
  · simp [TaskResult.fq_key, TaskResult.keySuffix, String.append_assoc]
  · simp [TaskResult.fq_key, TaskResult.keySuffix]
  · simp [TaskResult.fq_key, TaskResult.keySuffix]

/-- C3: TaskState::merge_with panics exactly when the stored state is
AttemptsWithFailure and the merged-in state is InProgress(Some); every other
pair returns normally, and merging InProgress(None) into
AttemptsWithFailure(xs) is the promotion to InProgress(Some(xs)). -/
theorem merge_with_panic_iff (s o : TaskState) :
    (s.merge_with o = none ↔
      ∃ xs ys, s = .AttemptsWithFailure xs ∧ o = .InProgress (some ys)) ∧
    (∀ xs, TaskState.merge_with (.AttemptsWithFailure xs) (.InProgress none) =
      some (.InProgress (some xs))) := by
  constructor
  · cases s with
    | NotStarted => cases o <;> simp [TaskState.merge_with]
    | Complete => cases o <;> simp [TaskState.merge_with]
    | AttemptsWithFailure xs =>
      cases o with
      | InProgress prior => cases prior <;> simp [TaskState.merge_with]
      | NotStarted => simp [TaskState.merge_with]
      | Complete => simp [TaskState.merge_with]
      | AttemptsWithFailure ys => simp [TaskState.merge_with]
    | InProgress prior =>
      cases prior <;> cases o <;> simp [TaskState.merge_with]
  · intro xs
    rfl

/-- C3 witness: the panic condition is realised at a concrete pair. -/
theorem merge_with_panic_iff_witness :
    TaskState.merge_with (.AttemptsWithFailure ["a"]) (.InProgress (some ["b"])) =
      none :=
  (merge_with_panic_iff (.AttemptsWithFailure ["a"]) (.InProgress (some ["b"]))).1.mpr
    ⟨["a"], ["b"], rfl, rfl⟩

/-- C2 counterexample: merging InProgress(None) into AttemptsWithFailure does
not leave the merged-in state unchanged; the stored state becomes
InProgress(Some(existing)) instead of InProgress(None). -/
theorem merge_with_other_unchanged_counterexample :
    TaskState.merge_with (.AttemptsWithFailure ["e"]) (.InProgress none) ≠
      some (.InProgress none) := by
  decide

/-- C2 (amended): the two failure-merging rules hold as stated, and every other
pair leaves the merged-in state unchanged except when the stored state is
AttemptsWithFailure and the merged-in state is InProgress(None) (promotion to
InProgress(Some(xs))) or InProgress(Some(_)) (a Bug panic). -/
theorem merge_with_rules_amended :
    (∀ xs ys, TaskState.merge_with (.AttemptsWithFailure xs) (.AttemptsWithFailure ys) =
      some (.AttemptsWithFailure (xs ++ ys))) ∧
    (∀ xs ys, TaskState.merge_with (.InProgress (some xs)) (.AttemptsWithFailure ys) =
      some (.AttemptsWithFailure (xs ++ ys))) ∧
    (∀ xs, TaskState.merge_with (.AttemptsWithFailure xs) (.InProgress none) =
      some (.InProgress (some xs))) ∧
    (∀ xs ys, TaskState.merge_with (.AttemptsWithFailure xs) (.InProgress (some ys)) =
      none) ∧
    (∀ (s o : TaskState),
      (∀ xs ys, ¬(s = .AttemptsWithFailure xs ∧ o = .AttemptsWithFailure ys)) →
      (∀ xs ys, ¬(s = .InProgress (some xs) ∧ o = .AttemptsWithFailure ys)) →
      (∀ xs p, ¬(s = .AttemptsWithFailure xs ∧ o = .InProgress p)) →
      s.merge_with o = some o) := by
  refine ⟨fun xs ys => rfl, fun xs ys => rfl, fun xs => rfl, fun xs ys => rfl, ?_⟩
  intro s o hnot_awf_awf hnot_ip_awf hnot_awf_ip
  cases s with
  | NotStarted => cases o <;> rfl
  | Complete => cases o <;> rfl
  | AttemptsWithFailure xs =>
    cases o with
    | AttemptsWithFailure ys => exact absurd ⟨rfl, rfl⟩ (hnot_awf_awf xs ys)
    | InProgress p => exact absurd ⟨rfl, rfl⟩ (hnot_awf_ip xs p)
    | NotStarted => rfl
    | Complete => rfl
  | InProgress prior =>
    cases prior with
    | none => cases o <;> rfl
    | some xs =>
      cases o with
      | AttemptsWithFailure ys => exact absurd ⟨rfl, rfl⟩ (hnot_ip_awf xs ys)
      | NotStarted => rfl
      | Complete => rfl
      | InProgress p2 => rfl

/-- C2 witness: the default arm leaves the merged-in state unchanged at a
concrete pair whose stored state is AttemptsWithFailure but whose merged-in
state is neither failure-merging nor InProgress. -/
theorem merge_with_rules_amended_witness :
    TaskState.merge_with (.AttemptsWithFailure ["e"]) .Complete = some .Complete :=
  merge_with_rules_amended.2.2.2.2 (.AttemptsWithFailure ["e"]) .Complete
    (fun _ _ h => nomatch h.2)
    (fun _ _ h => nomatch h.1)
    (fun _ _ h => nomatch h.2)

/-- C7: the not_available policy returns DoWrite without touching the git
channel; repo_with_working_dir sends and returns DoWrite exactly when the send
succeeds; repo_bare sends and returns Skip exactly when the send succeeds; and
each of the two channel-using policies yields the Message error exactly when
the channel send fails. -/
theorem write_policy_behaviour (req : WriteRequest) (send : WriteRequest → Bool) :
    (∀ st : WriteCallbackState, not_available req st = .ok (.DoWrite req)) ∧
    (repo_with_working_dir req (some send) = .ok (.DoWrite req) ↔ send req = true) ∧
    (repo_bare req (some send) = .ok .Skip ↔ send req = true) ∧
    (repo_with_working_dir req (some send) = .message "Could not send git request" ↔
      send req = false) ∧
    (repo_bare req (some send) = .message "Could not send git request" ↔
      send req = false) := by
  refine ⟨fun _ => rfl, ?_, ?_, ?_, ?_⟩ <;>
    cases h : send req <;>
      simp [repo_with_working_dir, repo_bare, h]

/-- C7 witness: with an always-succeeding channel the three policies produce
DoWrite, Skip and DoWrite on a concrete request. -/
theorem write_policy_behaviour_witness :
    repo_with_working_dir ⟨"p", [1]⟩ (some fun _ => true) =
      .ok (.DoWrite ⟨"p", [1]⟩) :=
  (write_policy_behaviour ⟨"p", [1]⟩ (fun _ => true)).2.1.mpr rfl

/-- C10: the report-aggregator progress initialisation divides num_crates by
chunk_size = min(500, num_crates) without a zero guard, so it panics when no
crate matches the filter; every run that passes it has at least one matching
crate. -/
theorem generate_requires_matching_crate :
    (∀ num_crates r, mergeProgressInit num_crates = some r → 1 ≤ num_crates) ∧
    reportChunkSize 0 = 0 ∧
    mergeProgressInit 0 = none := by
  refine ⟨?_, rfl, rfl⟩
  intro n r h
  cases n with
  | zero => simp [mergeProgressInit, reportChunkSize] at h
  | succ m => exact Nat.succ_le_succ (Nat.zero_le m)

/-- C10 witness: a successful initialisation at 500 crates. -/
theorem generate_requires_matching_crate_witness :
    mergeProgressInit 500 = some 1 ∧ 1 ≤ 500 :=
  ⟨rfl, generate_requires_matching_crate.1 500 1 rfl⟩

/-- A TaskState is complete exactly when it is the Complete constructor. -/
theorem is_complete_iff (s : TaskState) : s.is_complete = true ↔ s = .Complete := by
  cases s <;> simp [TaskState.is_complete]

/-- C6: the db-dump stage sends its DownloadRequest and runs extraction iff the
tasks table has no row for today's key crates-io-db-dump:YYYY-MM-DD, or the
stored task can be started relative to the startup time, or its state is
Complete; a Complete task from an earlier run never prevents the stage. -/
theorem db_dump_trigger_guard (tasks : String → Option Task) (cbs : Task → Bool)
    (date : String) :
    (dbDumpTrigger tasks cbs date true).sent =
      dbDumpGuard (tasks (dbDumpTaskKey date)) cbs ∧
    (dbDumpTrigger tasks cbs date true).extracted =
      dbDumpGuard (tasks (dbDumpTaskKey date)) cbs ∧
    (dbDumpGuard (tasks (dbDumpTaskKey date)) cbs = true ↔
      tasks (dbDumpTaskKey date) = none ∨
        ∃ t, tasks (dbDumpTaskKey date) = some t ∧
          (cbs t = true ∨ t.state = .Complete)) ∧
    (∀ t : Task, t.state = .Complete → dbDumpGuard (some t) cbs = true) := by
  refine ⟨?_, ?_, ?_, ?_⟩
  · cases h : dbDumpGuard (tasks (dbDumpTaskKey date)) cbs <;>
      simp [dbDumpTrigger, h]
  · cases h : dbDumpGuard (tasks (dbDumpTaskKey date)) cbs <;>
      simp [dbDumpTrigger, h]
  · cases hs : tasks (dbDumpTaskKey date) with
    | none => simp [dbDumpGuard]
    | some t => simp [dbDumpGuard, Bool.or_eq_true, is_complete_iff]
  · intro t ht
    simp [dbDumpGuard, is_complete_iff, ht]

/-- C6 witness: a Complete task stored under the key admits the stage even when
it cannot be started. -/
theorem db_dump_trigger_guard_witness :
    dbDumpGuard (some ⟨0, "crates-io-db-dump", "1", .Complete⟩) (fun _ => false) =
      true :=
  (db_dump_trigger_guard
      (fun _ => some ⟨0, "crates-io-db-dump", "1", .Complete⟩)
      (fun _ => false) "2020-02-26").2.2.2
    ⟨0, "crates-io-db-dump", "1", .Complete⟩ rfl

/-- C1: the fully-qualified task key has the four components
name:version:process:processVersion, and the SQL export insert, which unwraps
exactly three components and asserts that no fourth exists, panics on every
such key instead of writing a row; on a three-component key the same insert
does succeed and writes the row. -/
theorem task_sql_insert_panics_on_fq_key :
    Task.fq_key ⟨0, "download", "1.0.0", .NotStarted⟩ "foo" "0.1.0" =
      "foo:0.1.0:download:1.0.0" ∧
    Task.sqlInsert ⟨0, "download", "1.0.0", .NotStarted⟩
        (Task.fq_key ⟨0, "download", "1.0.0", .NotStarted⟩ "foo" "0.1.0") 1 true =
      .panicked ∧
    Task.sqlInsert ⟨0, "download", "1.0.0", .NotStarted⟩ "foo:0.1.0:download" 1 true =
      .ok ⟨1, "foo", "0.1.0", "download", "1.0.0", 0, "NotStarted"⟩ [] := by
  refine ⟨?_, ?_, ?_⟩ <;> decide

/-- The per-change loop of the index-diff stage journals one version write per
change under the name:version key in iteration order, counts every change as
a new crate version, and counts new crates per the post-upsert singleton
rule. -/
theorem processChanges_props (merge : Option Crate → CrateVersion → Crate)
    (changes : List CrateVersion) : ∀ crates0 : Store Crate,
    (processChanges merge changes crates0).versionWrites =
      changes.map (fun v => (v.key, v)) ∧
    (processChanges merge changes crates0).new_crate_versions = changes.length ∧
    (processChanges merge changes crates0).new_crates =
      newCratesSpec merge changes crates0 := by
  induction changes with
  | nil =>
    intro crates0
    exact ⟨rfl, rfl, rfl⟩
  | cons v rest ih =>
    intro crates0
    obtain ⟨h1, h2, h3⟩ :=
      ih (crates0.insert (Crate.key_from_version v)
        (merge (crates0.lookup (Crate.key_from_version v)) v))
    refine ⟨?_, ?_, ?_⟩
    · simp only [processChanges, h1, List.map_cons]
    · simp only [processChanges, h2, List.length_cons]
      omega
    · simp only [processChanges, newCratesSpec, h3]

/-- C4: over a run of the index-diff transaction, each change produces exactly
one CrateVersion row write under its name:version key in iteration order,
new_crate_versions is incremented once per change, new_crates exactly for the
changes whose post-upsert Crate.versions has length 1, and afterwards both
counts and the elapsed fetch time are added to today's Context record. -/
theorem changes_stage_accounting (merge : Option Crate → CrateVersion → Crate)
    (changes : List CrateVersion) (crates0 : Store Crate) (ctx : Context)
    (elapsed : Nat) :
    (processChanges merge changes crates0).versionWrites =
      changes.map (fun v => (v.key, v)) ∧
    (processChanges merge changes crates0).new_crate_versions = changes.length ∧
    (processChanges merge changes crates0).new_crates =
      newCratesSpec merge changes crates0 ∧
    (fetchStage merge changes crates0 ctx elapsed).2 =
      { counts :=
          { crate_versions := ctx.counts.crate_versions +
              (processChanges merge changes crates0).new_crate_versions
            crates := ctx.counts.crates +
              (processChanges merge changes crates0).new_crates }
        durations :=
          { fetch_crate_versions :=
              ctx.durations.fetch_crate_versions + elapsed } } := by
  obtain ⟨h1, h2, h3⟩ := processChanges_props merge changes crates0
  exact ⟨h1, h2, h3, rfl⟩

/-- One unfolding step of the report driver loop. -/
theorem driverLoop_succ {α : Type} (f cs : Nat) (table : List α) (fetched : Nat) :
    driverLoop (f + 1) cs table fetched =
      if (fetchChunkQuery table fetched cs).length ≠ cs
      then some [fetchChunkQuery table fetched cs]
      else (driverLoop f cs table
          (fetched + (fetchChunkQuery table fetched cs).length)).map
        (fun rest => fetchChunkQuery table fetched cs :: rest) := rfl

/-- Whenever the report driver loop finishes within its fuel, the dispatched
chunks concatenate, in dispatch order, to exactly the undispatched suffix of
the table, and their lengths are full chunks followed by one final remainder
chunk. -/
theorem driverLoop_sound {α : Type} (cs : Nat) (hcs : 0 < cs) (table : List α) :
    ∀ fuel fetched out, driverLoop fuel cs table fetched = some out →
      out.flatten = table.drop fetched ∧
      out.map List.length =
        List.replicate ((table.length - fetched) / cs) cs ++
          [(table.length - fetched) % cs] := by
  intro fuel
  induction fuel with
  | zero =>
    intro fetched out h
    exact absurd h (by simp [driverLoop])
  | succ f ih =>
    intro fetched out h
    rw [driverLoop_succ] at h
    have hchunklen : (fetchChunkQuery table fetched cs).length =
        min cs (table.length - fetched) := by
      simp [fetchChunkQuery, List.length_take, List.length_drop]
    by_cases hfull : (fetchChunkQuery table fetched cs).length = cs
    · have hle : cs ≤ table.length - fetched := by omega
      rw [if_neg (by omega), hfull] at h
      cases hrec : driverLoop f cs table (fetched + cs) with
      | none =>
        rw [hrec] at h
        simp at h
      | some out2 =>
        rw [hrec, Option.map_some'] at h
        obtain rfl := (Option.some_inj.mp h).symm
        obtain ⟨ihflat, ihlen⟩ := ih (fetched + cs) out2 hrec
        have hsub : table.length - (fetched + cs) = table.length - fetched - cs := by
          omega
        refine ⟨?_, ?_⟩
        · rw [List.flatten_cons, ihflat, ← List.drop_drop]
          exact List.take_append_drop cs (table.drop fetched)
        · rw [List.map_cons, ihlen, hsub, hfull,
            Nat.div_eq_sub_div hcs hle, Nat.mod_eq_sub_mod hle,
            List.replicate_succ, List.cons_append]
    · have hlt : table.length - fetched < cs := by omega
      rw [if_pos hfull] at h
      obtain rfl := (Option.some_inj.mp h).symm
      have hchunk : fetchChunkQuery table fetched cs = table.drop fetched := by
        apply List.take_of_length_le
        rw [List.length_drop]
        omega
      refine ⟨by simp [hchunk], ?_⟩
      rw [List.map_cons, List.map_nil, Nat.div_eq_of_lt hlt, Nat.mod_eq_of_lt hlt,
        List.replicate_zero, List.nil_append, hchunklen,
        Nat.min_eq_right (Nat.le_of_lt hlt)]

/-- With positive chunk size, fuel exceeding the number of full chunks makes
the report driver loop finish. -/
theorem driverLoop_total {α : Type} (cs : Nat) (hcs : 0 < cs) (table : List α) :
    ∀ fuel fetched, (table.length - fetched) / cs < fuel →
      ∃ out, driverLoop fuel cs table fetched = some out := by
  intro fuel
  induction fuel with
  | zero =>
    intro fetched h
    exact absurd h (Nat.not_lt_zero _)
  | succ f ih =>
    intro fetched h
    have hchunklen : (fetchChunkQuery table fetched cs).length =
        min cs (table.length - fetched) := by
      simp [fetchChunkQuery, List.length_take, List.length_drop]
    by_cases hlt : table.length - fetched < cs
    · refine ⟨[fetchChunkQuery table fetched cs], ?_⟩
      rw [driverLoop_succ, if_pos (by omega)]
    · have hle : cs ≤ table.length - fetched := by omega
      have hfull : (fetchChunkQuery table fetched cs).length = cs := by omega
      have hrec : (table.length - (fetched + cs)) / cs < f := by
        have hsub : table.length - (fetched + cs) = table.length - fetched - cs := by
          omega
        rw [hsub]
        have hdiv := Nat.div_eq_sub_div hcs hle
        omega
      obtain ⟨out2, hout2⟩ := ih (fetched + cs) hrec
      refine ⟨fetchChunkQuery table fetched cs :: out2, ?_⟩
      rw [driverLoop_succ, if_neg (by omega), hfull, hout2, Option.map_some']

/-- C5: with chunk_size = min(500, 1237) = 500, the driver queries at offset
equal to the crates already fetched, dispatches each fetched chunk in fetch
order, stops after dispatching the first chunk whose length differs from
chunk_size, and for 1237 matching crates dispatches chunks of sizes
500, 500, 237 whose concatenation is exactly the crates table. -/
theorem report_driver_pagination (table : List Nat) (h : table.length = 1237) :
    reportChunkSize 1237 = 500 ∧
    ∃ out, driverLoop 4 500 table 0 = some out ∧
      out.map List.length = [500, 500, 237] ∧
      out.flatten = table := by
  refine ⟨rfl, ?_⟩
  have hcs : 0 < 500 := by norm_num
  obtain ⟨out, hout⟩ := driverLoop_total 500 hcs table 4 0 (by rw [h]; decide)
  obtain ⟨hflat, hlen⟩ := driverLoop_sound 500 hcs table 4 0 out hout
  rw [h] at hlen
  rw [List.drop_zero] at hflat
  exact ⟨out, hout, hlen.trans (by decide), hflat⟩

/-- C5 witness: the pagination property realised on the 1237-element table
0, 1, ..., 1236. -/
theorem report_driver_pagination_witness :
    ∃ out, driverLoop 4 500 (List.range 1237) 0 = some out ∧
      out.map List.length = [500, 500, 237] ∧
      out.flatten = List.range 1237 :=
  (report_driver_pagination (List.range 1237) (List.length_range 1237)).2

end Criner
